import Mathlib

/-!
# Dutch auction contract: shallow embedding and verification

This file embeds the `dutch_auction` ink! contract (`src/lib.rs`) in Lean 4
and settles the specification claims about it.

Modelling conventions:
- `u128` values are `Nat`s; Rust's `saturating_sub` on unsigned integers is
  exactly truncated `Nat` subtraction, `saturating_mul` clamps at
  `2 ^ 128 - 1`, and `saturating_div` on unsigned integers is plain division
  except that it panics on a zero divisor, so it is modelled as returning
  `Option Nat` (`none` = panic / contract trap).
- `AccountId` and `BlockNumber` are `Nat`s (`BlockNumber` is `u32` in ink!,
  converted `.into()` a `u128` before any arithmetic; using `Nat` only
  enlarges the input space of the universally quantified theorems).
- The two external PSP22 token contracts are an oracle (`Env`): the balance
  returned by `balance_of` and the results of the two transfer calls are
  inputs. `buy` records the transfer calls it issues, in order, so that
  ordering and frame claims can be stated.
-/

namespace DutchAuction

/-- Largest `u128` value, the clamp of Rust's saturating multiplication. -/
def U128_MAX : Nat := 2 ^ 128 - 1

/-- Rust `u128::saturating_mul` on `Nat` representatives. -/
def satMul (a b : Nat) : Nat := min (a * b) U128_MAX

/-- Rust `u128::saturating_div`: plain truncated division, but it panics on a
zero divisor (`none`). -/
def satDiv (a b : Nat) : Option Nat :=
  if b = 0 then none else some (a / b)

/-- `DutchAuction::linear_decrease` (src/lib.rs:248-270), with Rust's
`saturating_sub` rendered as `Nat` subtraction and each `saturating_div`
threaded through `Option` because it panics on a zero divisor.

```rust
let steps = x.saturating_sub(x_start);
let x_span = x_end.saturating_sub(x_start);
let y_span = y_start.saturating_sub(y_end);
if x >= x_end { y_end }
else if x <= x_start { y_start }
else if y_span > x_span {
    let y_per_x = y_span.saturating_div(x_span);
    y_start.saturating_sub(steps.saturating_mul(y_per_x))
} else {
    let x_per_y = x_span.saturating_div(y_span);
    y_start.saturating_sub(steps.saturating_div(x_per_y))
}
```
-/
def linear_decrease (x_start y_start x_end y_end x : Nat) : Option Nat :=
  let steps := x - x_start
  let x_span := x_end - x_start
  let y_span := y_start - y_end
  if x ≥ x_end then
    some y_end
  else if x ≤ x_start then
    some y_start
  else if y_span > x_span then
    (satDiv y_span x_span).map (fun y_per_x => y_start - satMul steps y_per_x)
  else
    (satDiv x_span y_span).bind (fun x_per_y =>
      (satDiv steps x_per_y).map (fun q => y_start - q))

/-- The contract storage struct (src/lib.rs:52-61). The two
`contract_ref!(PSP22)` fields are kept as the underlying `AccountId`s. -/
structure State where
  auction_owner : Nat
  asset_token : Nat
  payment_token : Nat
  start_price : Nat
  min_price : Nat
  start_time : Nat
  end_time : Nat
deriving DecidableEq, Repr

/-- `DutchAuction::current_price` (src/lib.rs:211-220): linear interpolation
between `(start_time, start_price)` and `(end_time, min_price)` at the
current block number, clamped from below by `min_price`. `none` is the panic
propagated out of `linear_decrease`. -/
def current_price (s : State) (block_number : Nat) : Option Nat :=
  (linear_decrease s.start_time s.start_price s.end_time s.min_price
      block_number).map
    (fun p => max p s.min_price)

/-- Opaque stand-in for the external crate's `PSP22Error` payload. -/
structure PSP22Error where
  code : Nat
deriving DecidableEq, Repr

/-- The contract's `Error` enum (src/lib.rs:63-70). -/
inductive Error where
  | PSP22TokenCall : PSP22Error → Error
  | MaxPriceExceeded : Error
  | InsufficientSupplyToken : Error
  | NotAuctionOwner : Error
deriving DecidableEq, Repr

/-- The `AssetBought` event (src/lib.rs:72-79); the Rust field `by` is a Lean
keyword and is rendered `buyer`. -/
structure AssetBought where
  buyer : Nat
  price : Nat
  amount : Nat
deriving DecidableEq, Repr

/-- One external PSP22 transfer call issued by the contract, with the token
address and the arguments passed. -/
inductive ExtCall where
  | transferFrom (token from_acct to_acct amount : Nat)
  | transfer (token to_acct amount : Nat)
deriving DecidableEq, Repr

/-- The host/collaborator oracle for one invocation: current block number,
caller, the balance the asset token reports for the auction owner, and the
results the two token contracts would return for the transfer calls. -/
structure Env where
  blockNumber : Nat
  caller : Nat
  assetOwnerBalance : Nat
  paymentTransferFrom : Except PSP22Error Unit
  assetTransfer : Except PSP22Error Unit

/-- `DutchAuction::asset_balance` (src/lib.rs:242-244):
`asset_token.balance_of(auction_owner)`, read from the oracle. -/
def asset_balance (_s : State) (env : Env) : Nat :=
  env.assetOwnerBalance

/-- `DutchAuction::available_asset` (src/lib.rs:134-137). -/
def available_asset (s : State) (env : Env) : Nat :=
  asset_balance s env

/-- `DutchAuction::take_payment` (src/lib.rs:222-231): the result of
`payment_token.transfer_from(from, auction_owner, amount, vec![])`, with a
PSP22 error wrapped via `Error::from`. -/
def take_payment (_s : State) (env : Env) (_from_acct _amount : Nat) :
    Except Error Unit :=
  match env.paymentTransferFrom with
  | .error psp22_err => .error (.PSP22TokenCall psp22_err)
  | .ok _ => .ok ()

/-- `DutchAuction::give_asset` (src/lib.rs:233-240): the result of
`asset_token.transfer(to, amount, vec![])`, with a PSP22 error wrapped. -/
def give_asset (_s : State) (env : Env) (_to _amount : Nat) :
    Except Error Unit :=
  match env.assetTransfer with
  | .error psp22_err => .error (.PSP22TokenCall psp22_err)
  | .ok _ => .ok ()

/-- Everything one call to `buy` produces: the returned `Result`, the
external transfer calls issued (in issue order), the events emitted, and the
contract storage as left behind. -/
structure BuyOutcome where
  result : Except Error Unit
  calls : List ExtCall
  events : List AssetBought
  state : State
deriving Repr

/-- The transfer phase of `DutchAuction::buy` (src/lib.rs:187-198): the two
`?`-propagated calls `take_payment(caller, price)` then
`give_asset(caller, amount)`, followed by the `AssetBought` event. Payment
collection is issued first; `give_asset` is only reached when it succeeds. -/
def transfer_phase (s : State) (env : Env) (amount price : Nat) :
    BuyOutcome :=
  let payCall := ExtCall.transferFrom s.payment_token env.caller
    s.auction_owner price
  match take_payment s env env.caller price with
  | .error e =>
    { result := .error e, calls := [payCall], events := [], state := s }
  | .ok _ =>
    let assetCall := ExtCall.transfer s.asset_token env.caller amount
    match give_asset s env env.caller amount with
    | .error e =>
      { result := .error e, calls := [payCall, assetCall],
        events := [], state := s }
    | .ok _ =>
      { result := .ok (), calls := [payCall, assetCall],
        events := [{ buyer := env.caller, price := price,
                     amount := amount }],
        state := s }

/-- `DutchAuction::buy` (src/lib.rs:175-199). `none` is a panic propagated
out of `current_price`. The supply check reads
`self.available_asset() < amount || amount < 1` before any price
computation; the `max_price` check precedes both transfers; the transfer
phase (payment, then asset, then the event) is `transfer_phase`. -/
def buy (s : State) (env : Env) (amount : Nat) (max_price : Option Nat) :
    Option BuyOutcome :=
  if available_asset s env < amount ∨ amount < 1 then
    some { result := .error .InsufficientSupplyToken, calls := [],
           events := [], state := s }
  else
    (current_price s env.blockNumber).map (fun current =>
      let price := satMul current amount
      match max_price with
      | some mp => if price > mp then
          { result := .error .MaxPriceExceeded, calls := [], events := [],
            state := s }
        else transfer_phase s env amount price
      | none => transfer_phase s env amount price)

/-- `DutchAuction::check_owner` (src/lib.rs:272-278). -/
def check_owner (s : State) (account : Nat) : Except Error Unit :=
  if account ≠ s.auction_owner then .error .NotAuctionOwner else .ok ()

/-- `DutchAuction::set_min_price` (src/lib.rs:149-154); the pair carries the
returned `Result` and the storage after the call. -/
def set_min_price (s : State) (caller value : Nat) :
    Except Error Unit × State :=
  match check_owner s caller with
  | .error e => (.error e, s)
  | .ok _ => (.ok (), { s with min_price := value })

/-- `DutchAuction::set_end_time` (src/lib.rs:160-165). -/
def set_end_time (s : State) (caller end_time : Nat) :
    Except Error Unit × State :=
  match check_owner s caller with
  | .error e => (.error e, s)
  | .ok _ => (.ok (), { s with end_time := end_time })

/-- `DutchAuction::terminate` (src/lib.rs:205-209); the `Bool` records
whether `env.terminate_contract` was reached. On the owner path the call
never returns, so only the non-owner path yields a `Result`. -/
def terminate (s : State) (caller : Nat) :
    Except Error Unit × State × Bool :=
  match check_owner s caller with
  | .error e => (.error e, s, false)
  | .ok _ => (.ok (), s, true)

/-! ## Helper lemmas -/

theorem satDiv_eq_none_iff (a b : Nat) : satDiv a b = none ↔ b = 0 := by
  unfold satDiv
  split <;> simp_all

theorem satDiv_pos (a b : Nat) (hb : 0 < b) : satDiv a b = some (a / b) := by
  unfold satDiv
  simp [Nat.pos_iff_ne_zero.mp hb]

/-- Zeta-reduced form of `linear_decrease` (the `let`s inlined), for use with
`split_ifs`. -/
theorem linear_decrease_def (a b c d x : Nat) :
    linear_decrease a b c d x =
      if c ≤ x then some d
      else if x ≤ a then some b
      else if c - a < b - d then
        (satDiv (b - d) (c - a)).map
          (fun y_per_x => b - satMul (x - a) y_per_x)
      else
        (satDiv (c - a) (b - d)).bind (fun x_per_y =>
          (satDiv (x - a) x_per_y).map (fun q => b - q)) := rfl

/-- `linear_decrease` panics (hits a zero divisor) exactly when `x` lies
strictly between the endpoints and the price span is zero
(`y_start ≤ y_end`). -/
theorem linear_decrease_eq_none_iff (a b c d x : Nat) :
    linear_decrease a b c d x = none ↔ a < x ∧ x < c ∧ b ≤ d := by
  rw [linear_decrease_def]
  split_ifs with h1 h2 h3
  · simp; omega
  · simp; omega
  · rw [satDiv_pos _ _ (by omega)]
    simp
    omega
  · by_cases hy : b - d = 0
    · rw [(satDiv_eq_none_iff _ _).mpr hy]
      simp
      omega
    · rw [satDiv_pos _ _ (by omega)]
      have hxper : 0 < (c - a) / (b - d) := Nat.div_pos (by omega) (by omega)
      simp [satDiv_pos _ _ hxper]
      omega

/-- Closed form of `linear_decrease` on strictly interior `x` with a positive
price span. -/
theorem linear_decrease_interior (a b c d x : Nat)
    (ha : a < x) (hc : x < c) (hd : d < b) :
    linear_decrease a b c d x =
      some (if c - a < b - d then b - satMul (x - a) ((b - d) / (c - a))
            else b - (x - a) / ((c - a) / (b - d))) := by
  rw [linear_decrease_def]
  rw [if_neg (by omega), if_neg (by omega)]
  split_ifs with h3
  · rw [satDiv_pos _ _ (by omega)]
    simp
  · rw [satDiv_pos _ _ (by omega)]
    have hxper : 0 < (c - a) / (b - d) := Nat.div_pos (by omega) (by omega)
    simp [satDiv_pos _ _ hxper]

theorem satMul_le_satMul_left {s t : Nat} (h : s ≤ t) (q : Nat) :
    satMul s q ≤ satMul t q :=
  min_le_min (Nat.mul_le_mul h (le_refl q)) le_rfl

/-- On interior blocks the interpolated value is antitone in `x`. -/
theorem linear_decrease_interior_anti (a b c d x1 x2 v1 v2 : Nat)
    (ha : a < x1) (h12 : x1 ≤ x2) (hc : x2 < c) (hd : d < b)
    (h1 : linear_decrease a b c d x1 = some v1)
    (h2 : linear_decrease a b c d x2 = some v2) :
    v2 ≤ v1 ∧ v1 ≤ b ∧ v2 ≤ b := by
  rw [linear_decrease_interior a b c d x1 ha (by omega) hd] at h1
  rw [linear_decrease_interior a b c d x2 (by omega) hc hd] at h2
  obtain rfl : _ = v1 := Option.some_injective _ h1
  obtain rfl : _ = v2 := Option.some_injective _ h2
  split_ifs
  · refine ⟨Nat.sub_le_sub_left ?_ b, Nat.sub_le _ _, Nat.sub_le _ _⟩
    exact satMul_le_satMul_left (Nat.sub_le_sub_right h12 a) _
  · refine ⟨Nat.sub_le_sub_left ?_ b, Nat.sub_le _ _, Nat.sub_le _ _⟩
    exact Nat.div_le_div_right (Nat.sub_le_sub_right h12 a)

/-- Unfolding of `current_price` through the `Option.map`. -/
theorem current_price_eq_some_iff (s : State) (x p : Nat) :
    current_price s x = some p ↔
      ∃ v, linear_decrease s.start_time s.start_price s.end_time
          s.min_price x = some v ∧ p = max v s.min_price := by
  unfold current_price
  cases h : linear_decrease s.start_time s.start_price s.end_time
      s.min_price x <;> simp [h, eq_comm]

/-! ## Claim theorems -/

/-- C1, counterexample: `linear_decrease` is not total. With
`y_start = y_end = 100` (so `y_span = 0`) and `x = 5` strictly between
`x_start = 0` and `x_end = 10`, neither bounds check fires, the
`y_span > x_span` branch is not taken, and the second branch executes
`x_span.saturating_div(y_span)` with a zero divisor — a panic. -/
theorem claim_C1_counterexample :
    (linear_decrease 0 100 10 100 5).isSome = false := rfl

/-- C1 (amended): the bounds checks do make `x_span` nonzero in the first
division branch, so that branch never divides by zero; but a zero `y_span`
is not short-circuited, and the second branch divides by `y_span`.
`linear_decrease` evaluates without a zero divisor exactly when
`y_end < y_start` or `x` lies outside the open interval
`(x_start, x_end)`. -/
theorem claim_C1_no_div_by_zero_iff (a b c d x : Nat) :
    (linear_decrease a b c d x).isSome ↔ d < b ∨ x ≤ a ∨ c ≤ x := by
  rw [Option.isSome_iff_ne_none, ne_eq, linear_decrease_eq_none_iff]
  omega

/-- C2, counterexample: `current_price` at a block `x ≤ start_time` is not
always `start_price`. With an inverted schedule (`end_time < start_time`)
the `x >= x_end` branch fires first and returns `min_price`; and with
`min_price > start_price` the final `.max(min_price)` lifts the result above
`start_price`. -/
theorem claim_C2_counterexample :
    (7 ≤ (State.mk 0 1 2 1000 100 10 5).start_time ∧
      current_price (State.mk 0 1 2 1000 100 10 5) 7 ≠
        some (State.mk 0 1 2 1000 100 10 5).start_price) ∧
    (0 ≤ (State.mk 0 1 2 100 1000 0 100).start_time ∧
      current_price (State.mk 0 1 2 100 1000 0 100) 0 ≠
        some (State.mk 0 1 2 100 1000 0 100).start_price) := by
  decide

/-- C2 (amended): for every auction state with `min_price ≤ start_price` and
every block `x` with `x ≤ start_time` and `x < end_time` (in particular, for
every `x ≤ start_time` whenever `start_time < end_time`), `current_price`
returns exactly `start_price`. -/
theorem claim_C2_price_before_start (s : State) (x : Nat)
    (hx : x ≤ s.start_time) (hend : x < s.end_time)
    (hmin : s.min_price ≤ s.start_price) :
    current_price s x = some s.start_price := by
  unfold current_price
  rw [linear_decrease_def, if_neg (by omega), if_pos hx]
  simp [Nat.max_eq_left hmin]

theorem claim_C2_witness :
    (7 ≤ (State.mk 0 1 2 1000 100 10 20).start_time ∧
      7 < (State.mk 0 1 2 1000 100 10 20).end_time) ∧
    current_price (State.mk 0 1 2 1000 100 10 20) 7 = some 1000 :=
  ⟨by decide,
    claim_C2_price_before_start (State.mk 0 1 2 1000 100 10 20) 7
      (by decide) (by decide) (by decide)⟩

/-- C3: on strictly interior blocks, whenever `current_price` returns
values, the price is non-increasing in the block number and lies between
`min_price` and `start_price` inclusive. -/
theorem claim_C3_interior_mono_bounded (s : State) (x1 x2 p1 p2 : Nat)
    (h1 : s.start_time < x1) (h12 : x1 ≤ x2) (h2 : x2 < s.end_time)
    (hp1 : current_price s x1 = some p1)
    (hp2 : current_price s x2 = some p2) :
    p2 ≤ p1 ∧ s.min_price ≤ p1 ∧ p1 ≤ s.start_price ∧
      s.min_price ≤ p2 ∧ p2 ≤ s.start_price := by
  obtain ⟨v1, hv1, rfl⟩ := (current_price_eq_some_iff s x1 p1).mp hp1
  obtain ⟨v2, hv2, rfl⟩ := (current_price_eq_some_iff s x2 p2).mp hp2
  have hd : s.min_price < s.start_price := by
    by_contra hle
    rw [(linear_decrease_eq_none_iff _ _ _ _ _).mpr
      ⟨h1, by omega, by omega⟩] at hv1
    exact Option.noConfusion hv1
  obtain ⟨hmono, hub1, hub2⟩ :=
    linear_decrease_interior_anti _ _ _ _ _ _ _ _ h1 h12 h2 hd hv1 hv2
  exact ⟨max_le_max hmono le_rfl, le_max_right _ _,
    max_le hub1 (le_of_lt hd), le_max_right _ _, max_le hub2 (le_of_lt hd)⟩

theorem claim_C3_witness :
    current_price (State.mk 0 1 2 1000 100 0 100) 30 = some 730 ∧
    current_price (State.mk 0 1 2 1000 100 0 100) 60 = some 460 ∧
    ((460 : Nat) ≤ 730 ∧ (100 : Nat) ≤ 730 ∧ (730 : Nat) ≤ 1000 ∧
      (100 : Nat) ≤ 460 ∧ (460 : Nat) ≤ 1000) :=
  ⟨by decide, by decide,
    claim_C3_interior_mono_bounded (State.mk 0 1 2 1000 100 0 100)
      30 60 730 460 (by decide) (by decide) (by decide)
      (by decide) (by decide)⟩

/-- C4: whenever `current_price` returns a value — for any state, so in
particular for any state produced by `set_min_price` raising or lowering
`min_price` after construction — that value is at least the state's
`min_price`, thanks to the final `.max(self.min_price)`. -/
theorem claim_C4_price_ge_min (s : State) (x p : Nat)
    (hp : current_price s x = some p) : s.min_price ≤ p := by
  obtain ⟨v, _, rfl⟩ := (current_price_eq_some_iff s x p).mp hp
  exact le_max_right _ _

theorem claim_C4_witness :
    current_price (State.mk 0 1 2 15 5 0 19) 18 = some 5 ∧ (5 : Nat) ≤ 5 :=
  ⟨by decide,
    claim_C4_price_ge_min (State.mk 0 1 2 15 5 0 19) 18 5 (by decide)⟩

/-- C9: for the schedule `start_price = 1000`, `min_price = 100`,
`start_time = 0`, `end_time = 100`: price 1000 at block 0, price 550 at
block 50, and price 100 at every block `x ≥ 100`. -/
theorem claim_C9_example_schedule :
    current_price (State.mk 0 1 2 1000 100 0 100) 0 = some 1000 ∧
    current_price (State.mk 0 1 2 1000 100 0 100) 50 = some 550 ∧
    ∀ x, 100 ≤ x →
      current_price (State.mk 0 1 2 1000 100 0 100) x = some 100 := by
  refine ⟨by decide, by decide, fun x hx => ?_⟩
  show (linear_decrease 0 1000 100 100 x).map (fun p => max p 100) = some 100
  rw [linear_decrease_def, if_pos hx]
  simp

theorem claim_C9_witness :
    (100 : Nat) ≤ 150 ∧
    current_price (State.mk 0 1 2 1000 100 0 100) 150 = some 100 :=
  ⟨by decide, claim_C9_example_schedule.2.2 150 (by decide)⟩

/-- C5: once the supply check passes and `current_price` returns `cp`,
`buy(amount, Some(mp))` returns `MaxPriceExceeded` exactly when the
saturating total `cp * amount` exceeds `mp`; and when the total is within
the ceiling and both token calls succeed, `buy` returns `Ok(())`. -/
theorem claim_C5_max_price (s : State) (env : Env) (amount mp cp : Nat)
    (h1 : 1 ≤ amount) (h2 : amount ≤ env.assetOwnerBalance)
    (hcp : current_price s env.blockNumber = some cp) :
    ((buy s env amount (some mp)).map BuyOutcome.result =
        some (.error .MaxPriceExceeded) ↔ mp < satMul cp amount) ∧
    (satMul cp amount ≤ mp → env.paymentTransferFrom = .ok () →
      env.assetTransfer = .ok () →
      (buy s env amount (some mp)).map BuyOutcome.result =
        some (.ok ())) := by
  obtain ⟨bn, cl, bal, pr, ar⟩ := env
  have h2b : amount ≤ bal := h2
  unfold buy
  rw [if_neg (by simp only [available_asset, asset_balance]; omega)]
  rw [hcp]
  simp only [Option.map_some']
  constructor
  · by_cases hm : mp < satMul cp amount
    · rw [if_pos hm]
      simp [hm]
    · rw [if_neg hm]
      simp only [transfer_phase, take_payment, give_asset]
      cases pr <;> cases ar <;> simp [hm]
  · intro hle hpr har
    rw [if_neg (by omega)]
    simp only [transfer_phase, take_payment, give_asset]
    rw [hpr, har]

theorem claim_C5_witness :
    ((1000 : Nat) < satMul 550 2) ∧
    (buy (State.mk 0 1 2 1000 100 0 100) (Env.mk 50 9 10 (.ok ()) (.ok ()))
        2 (some 1000)).map BuyOutcome.result =
      some (.error .MaxPriceExceeded) :=
  ⟨by decide,
    ((claim_C5_max_price (State.mk 0 1 2 1000 100 0 100)
        (Env.mk 50 9 10 (.ok ()) (.ok ())) 2 1000 550
        (by decide) (by decide) (by decide)).1).mpr (by decide)⟩

/-- C6: `buy` fails with `InsufficientSupplyToken`, issuing no transfer
call and emitting no event, whenever `amount < 1` (in particular for
`amount = 0`, with any `max_price`) or `amount` exceeds the available asset
balance; the check runs before the price is even computed. -/
theorem claim_C6_insufficient_supply (s : State) (env : Env) (amount : Nat)
    (mp : Option Nat) (h : amount < 1 ∨ env.assetOwnerBalance < amount) :
    buy s env amount mp =
      some { result := .error .InsufficientSupplyToken, calls := [],
             events := [], state := s } := by
  unfold buy
  rw [if_pos (by simp only [available_asset, asset_balance]; omega)]

theorem claim_C6_witness :
    ((0 : Nat) < 1 ∨
      (Env.mk 50 9 10 (.ok ()) (.ok ())).assetOwnerBalance < 0) ∧
    buy (State.mk 0 1 2 1000 100 0 100) (Env.mk 50 9 10 (.ok ()) (.ok ()))
        0 none =
      some { result := .error .InsufficientSupplyToken, calls := [],
             events := [], state := State.mk 0 1 2 1000 100 0 100 } :=
  ⟨Or.inl (by decide),
    claim_C6_insufficient_supply (State.mk 0 1 2 1000 100 0 100)
      (Env.mk 50 9 10 (.ok ()) (.ok ())) 0 none (Or.inl (by decide))⟩

/-- C7: on a `buy` that reaches the transfer phase — any `max_price`,
`None` or `Some m`, as long as `Some m` does not trip the ceiling check —
the payment `transfer_from` is issued strictly before the asset `transfer`:
if payment collection fails with a PSP22 error `e`, `buy` returns
`PSP22TokenCall e`, the call trace holds only the payment call (the asset
transfer was never issued), and no event is emitted; on the success path
the trace is payment call first, asset call second. -/
theorem claim_C7_payment_first (s : State) (env : Env) (amount cp : Nat)
    (mp : Option Nat)
    (h1 : 1 ≤ amount) (h2 : amount ≤ env.assetOwnerBalance)
    (hcp : current_price s env.blockNumber = some cp)
    (hmax : ∀ m, mp = some m → satMul cp amount ≤ m) :
    (∀ e, env.paymentTransferFrom = .error e →
      buy s env amount mp = some
        { result := .error (.PSP22TokenCall e),
          calls := [.transferFrom s.payment_token env.caller s.auction_owner
            (satMul cp amount)],
          events := [], state := s }) ∧
    (env.paymentTransferFrom = .ok () → env.assetTransfer = .ok () →
      buy s env amount mp = some
        { result := .ok (),
          calls := [.transferFrom s.payment_token env.caller s.auction_owner
              (satMul cp amount),
            .transfer s.asset_token env.caller amount],
          events := [{ buyer := env.caller, price := satMul cp amount,
                       amount := amount }],
          state := s }) := by
  obtain ⟨bn, cl, bal, pr, ar⟩ := env
  have h2b : amount ≤ bal := h2
  unfold buy
  rw [if_neg (by simp only [available_asset, asset_balance]; omega)]
  rw [hcp]
  simp only [Option.map_some']
  cases mp with
  | none =>
    constructor
    · intro e hpr
      simp only [transfer_phase, take_payment, give_asset]
      rw [hpr]
    · intro hpr har
      simp only [transfer_phase, take_payment, give_asset]
      rw [hpr, har]
  | some m =>
    have hm := hmax m rfl
    dsimp only
    rw [if_neg (by omega)]
    constructor
    · intro e hpr
      simp only [transfer_phase, take_payment, give_asset]
      rw [hpr]
    · intro hpr har
      simp only [transfer_phase, take_payment, give_asset]
      rw [hpr, har]

theorem claim_C7_witness :
    buy (State.mk 0 1 2 1000 100 0 100)
        (Env.mk 50 9 10 (.error (PSP22Error.mk 7)) (.ok ())) 2 none =
      some { result := .error (.PSP22TokenCall (PSP22Error.mk 7)),
             calls := [.transferFrom 2 9 0 1100], events := [],
             state := State.mk 0 1 2 1000 100 0 100 } :=
  (claim_C7_payment_first (State.mk 0 1 2 1000 100 0 100)
      (Env.mk 50 9 10 (.error (PSP22Error.mk 7)) (.ok ())) 2 550 none
      (by decide) (by decide) (by decide)
      (fun m hm => Option.noConfusion hm)).1
    (PSP22Error.mk 7) rfl

/-- C8: a caller other than `auction_owner` gets `NotAuctionOwner` from
`set_min_price`, `set_end_time` and `terminate`, with the storage
untouched (and the contract not terminated); the owner's `set_min_price`
and `set_end_time` succeed and overwrite the respective field
unconditionally. -/
theorem claim_C8_owner_gate (s : State) (caller value end_t : Nat) :
    (caller ≠ s.auction_owner →
      set_min_price s caller value = (.error .NotAuctionOwner, s) ∧
      set_end_time s caller end_t = (.error .NotAuctionOwner, s) ∧
      terminate s caller = (.error .NotAuctionOwner, s, false)) ∧
    (caller = s.auction_owner →
      set_min_price s caller value = (.ok (), { s with min_price := value }) ∧
      set_end_time s caller end_t = (.ok (), { s with end_time := end_t })) := by
  unfold set_min_price set_end_time terminate check_owner
  by_cases h : caller = s.auction_owner <;> simp [h]

theorem claim_C8_witness :
    ((3 : Nat) ≠ (State.mk 0 1 2 1000 100 0 100).auction_owner) ∧
    set_min_price (State.mk 0 1 2 1000 100 0 100) 3 7 =
      (.error .NotAuctionOwner, State.mk 0 1 2 1000 100 0 100) :=
  ⟨by decide,
    ((claim_C8_owner_gate (State.mk 0 1 2 1000 100 0 100) 3 7 9).1
      (by decide)).1⟩

/-- C10: `buy` never changes the contract storage: whatever outcome it
returns (success or any error), the state it leaves behind is the state it
started from. -/
theorem claim_C10_frame (s : State) (env : Env) (amount : Nat)
    (mp : Option Nat) (o : BuyOutcome) (h : buy s env amount mp = some o) :
    o.state = s := by
  obtain ⟨bn, cl, bal, pr, ar⟩ := env
  unfold buy at h
  simp only [available_asset, asset_balance] at h
  split_ifs at h with hs
  · obtain rfl := Option.some_injective _ h
    rfl
  · cases hcp : current_price s bn with
    | none => rw [hcp] at h; exact Option.noConfusion h
    | some cp =>
      rw [hcp] at h
      simp only [Option.map_some'] at h
      obtain rfl := Option.some_injective _ h
      simp only [transfer_phase, take_payment, give_asset]
      cases mp <;> cases pr <;> cases ar <;> dsimp only <;>
        first
        | rfl
        | (split_ifs <;> rfl)

theorem claim_C10_witness :
    (BuyOutcome.mk (.ok ()) [.transferFrom 2 9 0 1100, .transfer 1 9 2]
        [AssetBought.mk 9 1100 2] (State.mk 0 1 2 1000 100 0 100)).state =
      State.mk 0 1 2 1000 100 0 100 :=
  claim_C10_frame (State.mk 0 1 2 1000 100 0 100)
    (Env.mk 50 9 10 (.ok ()) (.ok ())) 2 (some 1100) _ rfl

end DutchAuction
